import Mathlib

/-!
Shallow embedding of the wallet-tracker / creator-dashboard repository.

The embedding covers the three code areas the claims are about:

* the batched wallet-history fetch pipeline (`fetchWalletData` in
  `src/unnamed/part_001`), modelled as a pure state transformer over an
  oracle environment that fixes the outcome of every RPC interaction,
  paired with the trace of RPC calls it issues;
* the two transaction classifiers (`parseTransactionType`): the structural
  variant from `src/app/components/WalletTracker.tsx` and the heuristic
  keyword variant from the third sub-document of
  `src/app/components/UserSidebar.tsx`, including an executable model of
  the amount-extraction regex;
* the metric selection / sort state and the filter-sort-rank engine of
  `src/app/components/UserSidebar.tsx`.

JavaScript numbers are IEEE-754 binary64 values.  Every finite binary64
value is a rational number, so the embedding carries JS numbers as exact
fractions (`JsRat`) and applies the rounding function `fl64` — round to
nearest, ties to even, modelled exactly over the integers — to the result
of each arithmetic operation, exactly as the hardware does; `Option
JsRat` models a possibly-NaN value (arithmetic on an `undefined` array
read).  JavaScript's `Array.prototype.sort` is required by
ECMA-262 to be stable and consistent with the comparator, which pins the
result down uniquely; it is modelled by `List.insertionSort`, which is
sorted and stable for the (total, transitive) comparator preorders used
by this code.
-/

namespace Whop

/-! ### String helpers (JS `String.prototype.includes`) -/

/-- The chars of `p` are a prefix of the chars of `s`. -/
def charsStart : List Char → List Char → Bool
  | [], _ => true
  | _ :: _, [] => false
  | p :: ps, c :: cs => p == c && charsStart ps cs

/-- The chars of `pat` occur contiguously inside `s`. -/
def charsHave (s pat : List Char) : Bool :=
  match s with
  | [] => pat.isEmpty
  | _ :: t => charsStart pat s || charsHave t pat

/-- JS `s.includes(pat)`. -/
def strIncludes (s pat : String) : Bool :=
  charsHave s.toList pat.toList

/-- JS `s.toLowerCase()` (character-wise lowering; the identifiers and
queries involved are ASCII). -/
def strToLower (s : String) : String :=
  String.mk (s.toList.map Char.toLower)

/-! ### Exact model of the JS numbers in the balance computations -/

/-- An exact (not necessarily reduced) fraction `num / den` with `den > 0`
by construction.  Every finite binary64 value is such a fraction, so this
carries the exact value of each JS number in the balance computations;
`fl64` below performs the IEEE rounding after every operation. -/
structure JsRat where
  num : Int
  den : Int
deriving DecidableEq, Repr

/-- The integer `v` as an exact fraction (the input to rounding). -/
def jsRatOfInt (v : Int) : JsRat := { num := v, den := 1 }

/-- Floor of log2 with explicit fuel in the first argument; any fuel at
least the bit length of `n` gives the exact value. -/
def natLog2Go : Nat → Nat → Nat
  | 0, _ => 0
  | fuel + 1, n => if 2 ≤ n then natLog2Go fuel (n / 2) + 1 else 0

/-- Floor of log2 of a positive natural number. -/
def natLog2F (n : Nat) : Nat := natLog2Go n n

/-- Floor of log2 of the positive rational `a / d`, exact for magnitudes
of at least `2^-130` (every nonzero value reaching the rounding below is
far larger: lamport counts are at least 1, quotients at least 1e-9, and
differences of such doubles at least their common grid step). -/
def qLog2 (a d : Nat) : Int := (natLog2F (a * 2 ^ 130 / d) : Int) - 130

/-- Round `a / b` (with `b > 0`) to the nearest integer, ties to even. -/
def rneDiv (a b : Nat) : Nat :=
  let q := a / b
  let r := a % b
  if 2 * r < b then q
  else if b < 2 * r then q + 1
  else if q % 2 == 0 then q else q + 1

/-- Round an exact fraction with positive denominator to the nearest
IEEE-754 binary64 value (round to nearest, ties to even), returned as its
exact rational value: the 53-bit significand is the round-to-nearest-even
of `|x| * 2^(52-e)` at `e = floor(log2 |x|)`.  Overflow and subnormals
are not modelled; no value in this code path comes anywhere near them. -/
def fl64 (x : JsRat) : JsRat :=
  if x.num = 0 then { num := 0, den := 1 }
  else
    let a := x.num.natAbs
    let d := x.den.natAbs
    let e : Int := qLog2 a d
    let m : Nat :=
      if 0 ≤ 52 - e then rneDiv (a * 2 ^ (52 - e).toNat) d
      else rneDiv a (d * 2 ^ (e - 52).toNat)
    let sgn : Int := if x.num < 0 then -1 else 1
    if 52 ≤ e then { num := sgn * (m : Int) * 2 ^ (e - 52).toNat, den := 1 }
    else { num := sgn * (m : Int), den := 2 ^ (52 - e).toNat }

/-- The binary64 number the JSON layer delivers for an integer lamport
count (exact below 2^53, rounded above). -/
def jsNumber (v : Int) : JsRat := fl64 (jsRatOfInt v)

/-- JS `x / LAMPORTS_PER_SOL` (the SDK constant 1e9 is exactly
representable): the correctly rounded binary64 quotient. -/
def divByLamports (x : JsRat) : JsRat :=
  fl64 { num := x.num, den := x.den * 1000000000 }

/-- JS subtraction `a - b`: the correctly rounded binary64 difference. -/
def jsRatSub (a b : JsRat) : JsRat :=
  fl64 { num := a.num * b.den - b.num * a.den, den := a.den * b.den }

/-- Left-pad the decimal digits of `n < 10000` with zeros to width 4. -/
def pad4 (n : Nat) : String :=
  let s := toString n
  String.mk (List.replicate (4 - s.length) '0') ++ s

/-- ECMAScript `Number.prototype.toFixed(4)` on an exact value with a
positive denominator: extract the sign, then pick the integer `n` with
`n / 10^4` closest to the magnitude, ties toward the larger `n`, i.e.
`n = floor(|x| * 10^4 + 1/2) = (|num| * 2 * 10^4 + den) / (2 * den)`. -/
def toFixed4 (x : JsRat) : String :=
  let sgn := if x.num < 0 then "-" else ""
  let n : Nat := (x.num.natAbs * 20000 + x.den.natAbs) / (2 * x.den.natAbs)
  sgn ++ toString (n / 10000) ++ "." ++ pad4 (n % 10000)

/-- JS subtraction lifted to possibly-NaN values (NaN propagates). -/
def jsSub : Option JsRat → Option JsRat → Option JsRat
  | some a, some b => some (jsRatSub a b)
  | _, _ => none

/-- JS `change !== 0`: true for NaN, and for a positive-denominator
fraction exactly when the numerator is nonzero. -/
def jsNeZero : Option JsRat → Bool
  | none => true
  | some x => !(x.num == 0)

/-- JS `change.toFixed(4)`: NaN renders as the string "NaN". -/
def jsToFixed4 : Option JsRat → String
  | none => "NaN"
  | some x => toFixed4 x

/-! ### Data model of the upstream RPC shapes -/

/-- A record of the signature-history lookup: `{signature, blockTime?, err?}`.
`err = none` models a null/absent error (JS-falsy). -/
structure SigInfo where
  signature : String
  blockTime : Option Int
  err : Option String
deriving DecidableEq, Repr

/-- Instructions are only passed through, never inspected; an opaque string
stands for one instruction object. -/
abbrev Instruction := String

/-- One group inside `meta.innerInstructions`. -/
structure InnerIxGroup where
  instructions : List Instruction
deriving DecidableEq, Repr

/-- The `meta` object of a parsed transaction; every field the source reads
is optional there. `err = none` models `err === null`. -/
structure TxMeta where
  err : Option String
  logMessages : Option (List String)
  preBalances : Option (List Int)
  postBalances : Option (List Int)
  innerInstructions : Option (List InnerIxGroup)
deriving DecidableEq, Repr

/-- One entry of `message.accountKeys`; `pubkey.toString()` is the string
stored here. -/
structure AccountKey where
  pubkey : String
deriving DecidableEq, Repr

/-- The `transaction.message` object. -/
structure TxMessage where
  accountKeys : List AccountKey
  instructions : List Instruction
deriving DecidableEq, Repr

/-- A parsed transaction body; `message` models the access path
`tx.transaction?.message`. -/
structure ParsedTx where
  meta : Option TxMeta
  message : Option TxMessage
deriving DecidableEq, Repr

/-- One balance-change line `{account, change}` (change already rendered
by `toFixed(4)`). -/
structure BalanceChange where
  account : String
  change : String
deriving DecidableEq, Repr

/-- The classification record returned by the structural
`parseTransactionType`; the degenerate "Unknown Transaction" case leaves
the payload fields empty. -/
structure TxClass where
  description : String
  accounts : List String := []
  balanceChanges : List BalanceChange := []
  logs : List String := []
  instructions : List Instruction := []
deriving DecidableEq, Repr

/-! ### Structural classifier (`parseTransactionType`, WalletTracker.tsx) -/

/-- The body of
`accounts.map((account, index) => {...}).filter(Boolean)`:
for each account at position `i`, divide the pre/post lamport reads by
1e9, subtract, and emit an entry when the change is `!== 0` (an
out-of-range array read is `undefined`, whose arithmetic is NaN). -/
def balanceChangeList (preBalances postBalances : List Int) :
    Nat → List String → List BalanceChange
  | _, [] => []
  | i, account :: rest =>
    let pre := (preBalances[i]?).map (fun v => divByLamports (jsNumber v))
    let post := (postBalances[i]?).map (fun v => divByLamports (jsNumber v))
    let change := jsSub post pre
    (if jsNeZero change then
      [{ account := account, change := jsToFixed4 change }]
     else []) ++ balanceChangeList preBalances postBalances (i + 1) rest

/-- `parseTransactionType` from `src/app/components/WalletTracker.tsx`
(structural variant): guard `!tx.meta || !tx.transaction?.message`, then
report accounts, non-zero balance changes, logs with "Program log:"
lines stripped, and inner (or top-level) instructions. -/
def parseTransactionType (tx : ParsedTx) : TxClass :=
  match tx.meta, tx.message with
  | some meta, some msg =>
    let instructions := msg.instructions
    let parsedInstructions :=
      match meta.innerInstructions with
      | some (g :: _) => g.instructions
      | _ => instructions
    let logs := meta.logMessages.getD []
    let accounts := msg.accountKeys.map AccountKey.pubkey
    let preBalances := meta.preBalances.getD []
    let postBalances := meta.postBalances.getD []
    { description := "Transaction Details"
      accounts := accounts
      balanceChanges := balanceChangeList preBalances postBalances 0 accounts
      logs := logs.filter (fun log => !(strIncludes log "Program log:"))
      instructions := parsedInstructions }
  | _, _ => { description := "Unknown Transaction" }

/-! ### Heuristic classifier (`parseTransactionType`, UserSidebar.tsx third
sub-document): keyword scan plus the amount-extraction regex
`/(\d+\.?\d*)\s*(SOL|USDC|USDT|RAY|SRM|[\w]+)/gi`. -/

/-- JS `\d` (ASCII digits). -/
def isDigitC (c : Char) : Bool := '0' ≤ c && c ≤ '9'

/-- JS `\s` restricted to the ASCII whitespace characters (space, tab,
line feed, vertical tab, form feed, carriage return); the exotic Unicode
whitespace JS also accepts never occurs in transaction logs. -/
def isSpaceC (c : Char) : Bool :=
  c == ' ' || c == '\t' || c == '\n' || c == '\r' ||
    c == Char.ofNat 11 || c == Char.ofNat 12

/-- JS `\w` (ASCII letters, digits, underscore). -/
def isWordC (c : Char) : Bool :=
  ('a' ≤ c && c ≤ 'z') || ('A' ≤ c && c ≤ 'Z') || isDigitC c || c == '_'

/-- Length of the maximal run of characters satisfying `p` at the head. -/
def runLen (p : Char → Bool) : List Char → Nat
  | [] => 0
  | c :: t => if p c then runLen p t + 1 else 0

/-- Case-insensitive prefix test (the regex carries the `i` flag). -/
def ciStarts : List Char → List Char → Bool
  | [], _ => true
  | _ :: _, [] => false
  | p :: ps, c :: cs => p.toLower == c.toLower && ciStarts ps cs

/-- The candidate lengths `n, n-1, ..., lo` in the order a greedy,
backtracking quantifier tries them. -/
def descRange (n lo : Nat) : List Nat :=
  (List.range (n + 1 - lo)).map (fun i => n - i)

/-- Capture group 2: the ordered alternation
`SOL|USDC|USDT|RAY|SRM|[\w]+` (case-insensitive), capturing the matched
input text; returns the capture and the rest of the input. -/
def matchGroup2 (s : List Char) : Option (List Char × List Char) :=
  if ciStarts "SOL".toList s then some (s.take 3, s.drop 3)
  else if ciStarts "USDC".toList s then some (s.take 4, s.drop 4)
  else if ciStarts "USDT".toList s then some (s.take 4, s.drop 4)
  else if ciStarts "RAY".toList s then some (s.take 3, s.drop 3)
  else if ciStarts "SRM".toList s then some (s.take 3, s.drop 3)
  else
    let w := runLen isWordC s
    if w == 0 then none else some (s.take w, s.drop w)

/-- Match `(\d+\.?\d*)\s*(group2)` at the head of `s` with the search
order of a backtracking regex engine: each quantifier is greedy and gives
back from the right.  Returns (group-1 capture, group-2 capture, rest). -/
def matchAmountAt (s : List Char) : Option (List Char × List Char × List Char) :=
  let n1 := runLen isDigitC s
  (descRange n1 1).findSome? (fun k =>
    let r1 := s.drop k
    let dotOpts : List Nat :=
      match r1 with
      | '.' :: _ => [1, 0]
      | _ => [0]
    dotOpts.findSome? (fun d =>
      let r2 := r1.drop d
      let n2 := runLen isDigitC r2
      (descRange n2 0).findSome? (fun m =>
        let r3 := r2.drop m
        let n3 := runLen isSpaceC r3
        (descRange n3 0).findSome? (fun sp =>
          let r4 := r3.drop sp
          (matchGroup2 r4).map (fun g2 =>
            (s.take (k + d + m), g2.1, g2.2))))))

/-- JS `[...logs.matchAll(amountPattern)]`: scan left to right; after a
match continue right after it, otherwise advance one character.  Every
match consumes at least one character, so fuel equal to the input length
never runs out. -/
def scanAmounts : Nat → List Char → List (String × String)
  | 0, _ => []
  | _, [] => []
  | fuel + 1, s@(_ :: t) =>
    match matchAmountAt s with
    | some (g1, g2, rest) => (String.mk g1, String.mk g2) :: scanAmounts fuel rest
    | none => scanAmounts fuel t

/-- All matches of the amount pattern in `s`, as (amount, token) pairs of
captured text. -/
def matchAllAmounts (s : String) : List (String × String) :=
  scanAmounts s.toList.length s.toList

/-- `logs.join(' ')`. -/
def joinLogs (ls : List String) : String := String.intercalate " " ls

/-- `parseTransactionType` from the heuristic variant (third sub-document
of `src/app/components/UserSidebar.tsx`): guard `!tx.meta?.logMessages`,
join the log lines, then test the keyword triggers in source order with
the amount regex refining the Swap/Transfer descriptions. -/
def parseTransactionTypeHeuristic (tx : ParsedTx) : String :=
  match tx.meta with
  | none => "Unknown Transaction"
  | some meta =>
    match meta.logMessages with
    | none => "Unknown Transaction"
    | some logList =>
      let logs := joinLogs logList
      if strIncludes logs "Swap" then
        match matchAllAmounts logs with
        | a :: b :: _ =>
          "Swapped " ++ a.1 ++ " " ++ a.2 ++ " for " ++ b.1 ++ " " ++ b.2
        | _ => "Token Swap"
      else if strIncludes logs "Transfer" then
        match matchAllAmounts logs with
        | a :: _ => "Transferred " ++ a.1 ++ " " ++ a.2
        | _ => "Token Transfer"
      else if strIncludes logs "Deposit" then "Deposit"
      else if strIncludes logs "Withdraw" then "Withdrawal"
      else if strIncludes logs "Stake" then "Staking"
      else if strIncludes logs "Create" then "Account Creation"
      else if strIncludes logs "Close" then "Account Closure"
      else "Transaction"

/-! ### Batched wallet-history fetch (`fetchWalletData`, src/unnamed/part_001) -/

/-- The account-info lookup result (only `lamports` is read). -/
structure AccountInfo where
  lamports : Int
deriving DecidableEq, Repr

/-- One displayed transaction record as built inside the batch loop. -/
structure Trade where
  signature : String
  timestamp : String
  blockTime : Int
  successful : Bool
  type : TxClass
deriving DecidableEq, Repr

/-- One network interaction of the fetch (for the call trace). -/
inductive RpcCall where
  | accountInfo : RpcCall
  | signaturesForAddress : RpcCall
  | parsedTransaction (signature : String) : RpcCall
deriving DecidableEq, Repr

/-- The React state the fetch reads and writes:
`balance`, `trades`, `error`, `loading`. -/
structure WalletState where
  balance : Option JsRat
  trades : List Trade
  error : String
  loading : Bool
deriving DecidableEq, Repr

/-- The state before any fetch. -/
def initialWalletState : WalletState :=
  { balance := none, trades := [], error := "", loading := false }

/-- Oracle environment fixing the outcome of every external interaction of
one `fetchWalletData` run: address decoding (`new PublicKey` returns or
throws), the balance and signature-list fetches (resolve or reject), the
per-signature transaction fetch (`none` covers both a rejection and a
null body — the code maps both to `null`), and the locale time rendering
(`new Date(t * 1000).toLocaleString()`, an external library call whose
exact output nothing depends on). -/
structure FetchEnv where
  validateAddress : Except String Unit
  getAccountInfo : Except String (Option AccountInfo)
  getSignatures : Except String (List SigInfo)
  getTx : SigInfo → Option ParsedTx
  fmtTime : Int → String

/-- The record constructed for one signature inside the batch
`Promise.all` mapper; `none` when the transaction fetch failed or the
body was null (the record is dropped).  `sig.blockTime ? ... : 'Unknown
time'` and `sig.blockTime || 0` are JS truthiness tests, so a zero block
time also renders as unknown. -/
def buildRecord (env : FetchEnv) (sig : SigInfo) : Option Trade :=
  (env.getTx sig).map (fun tx =>
    { signature := sig.signature
      timestamp :=
        match sig.blockTime with
        | some t => if t ≠ 0 then env.fmtTime t else "Unknown time"
        | none => "Unknown time"
      blockTime :=
        match sig.blockTime with
        | some t => if t ≠ 0 then t else 0
        | none => 0
      successful := sig.err.isNone
      type := parseTransactionType tx })

/-- The batch slicing `allSignatures.slice(i, i + batchSize)` of the
`for (let i = 0; ...; i += batchSize)` loop, as consecutive chunks.  The
fuel argument only drives structural termination; it is fixed to the list
length, which the per-step consumption of at least one element never
exhausts. -/
def chunkGo (fuel n : Nat) (l : List α) : List (List α) :=
  match fuel, l with
  | _, [] => []
  | 0, l => [l]
  | fuel + 1, x :: xs => (x :: xs.take (n - 1)) :: chunkGo fuel n (xs.drop (n - 1))

/-- Partition into consecutive batches of size `n` (with `n ≥ 1`). -/
def chunkList (n : Nat) (l : List α) : List (List α) := chunkGo l.length n l

/-- `const batchSize = 25`. -/
def batchSize : Nat := 25

/-- The `allTransactions` accumulation: for each batch, map every
signature to its record-or-null and push the non-null ones
(`batchTransactions.filter(Boolean)`), concatenated across the rounds.
The inter-batch delay suspends but does not affect the data. -/
def collectedTrades (env : FetchEnv) (sigs : List SigInfo) : List Trade :=
  (chunkList batchSize sigs).flatMap
    (fun batch => (batch.map (buildRecord env)).filterMap id)

/-- The comparator preorder of
`.sort((a, b) => (b.blockTime || 0) - (a.blockTime || 0))`: `a` may come
before `b` when the comparator is `≤ 0`, i.e. descending block time
(`|| 0` is the identity here because `blockTime` was stored with
`|| 0`). -/
def tradeOrder (a b : Trade) : Prop := b.blockTime ≤ a.blockTime

instance : DecidableRel tradeOrder := fun a b => Int.decLe b.blockTime a.blockTime

instance : IsTotal Trade tradeOrder :=
  ⟨fun a b => le_total b.blockTime a.blockTime⟩

instance : IsTrans Trade tradeOrder :=
  ⟨fun _ _ _ h1 h2 => le_trans h2 h1⟩

/-- `allTransactions.filter(tx => tx !== null).sort(...)`.  The filter is
the identity on the already non-null records; the ECMA-262 sort is stable
and consistent with the comparator, which determines it uniquely, and
insertion sort realizes it. -/
def sortTrades (l : List Trade) : List Trade :=
  (l.filter (fun _ => true)).insertionSort tradeOrder

/-- `fetchWalletData` from `src/unnamed/part_001` as a state transformer,
paired with the trace of RPC calls issued, in source order: clear error
and trades and set loading; decode the address (abort with the raw error
message, balance null, trades empty on any throw caught by the
surrounding try/catch); fetch account info (balance = lamports / 1e9, or
0 for an absent account); fetch up to 1000 signatures; early-return on an
empty list; then run the batch loop and store the sorted result.  The
finally-block always clears loading. -/
def fetchWalletData (env : FetchEnv) (s0 : WalletState) :
    WalletState × List RpcCall :=
  let s := { s0 with loading := true, error := "", trades := [] }
  match env.validateAddress with
  | .error msg =>
    ({ s with error := msg, balance := none, trades := [], loading := false }, [])
  | .ok _ =>
    match env.getAccountInfo with
    | .error msg =>
      ({ s with error := msg, balance := none, trades := [], loading := false },
       [.accountInfo])
    | .ok acct =>
      let bal : JsRat :=
        match acct with
        | some a => divByLamports (jsNumber a.lamports)
        | none => jsRatOfInt 0
      let s := { s with balance := some bal }
      match env.getSignatures with
      | .error msg =>
        ({ s with error := msg, balance := none, trades := [], loading := false },
         [.accountInfo, .signaturesForAddress])
      | .ok sigs =>
        if sigs.isEmpty then
          ({ s with loading := false }, [.accountInfo, .signaturesForAddress])
        else
          ({ s with trades := sortTrades (collectedTrades env sigs), loading := false },
           [.accountInfo, .signaturesForAddress] ++
             sigs.map (fun g => .parsedTransaction g.signature))

/-- The first error of the aborting steps (address decode, balance fetch,
signature fetch), i.e. the exception reaching the try/catch, if any. -/
def firstAbortError (env : FetchEnv) : Option String :=
  match env.validateAddress with
  | .error m => some m
  | .ok _ =>
    match env.getAccountInfo with
    | .error m => some m
    | .ok _ =>
      match env.getSignatures with
      | .error m => some m
      | .ok _ => none

/-! ### Success flags of the two fetch variants -/

/-- One fetched transaction as both variants see it: the signature record
it came from and the parsed body. -/
structure TxObservation where
  sig : SigInfo
  tx : ParsedTx
deriving DecidableEq, Repr

/-- `successful: !sig.err` (batched variant, src/unnamed/part_001). -/
def successfulFromSignature (o : TxObservation) : Bool := o.sig.err.isNone

/-- `successful: tx.meta?.err === null` (WalletTracker.tsx): false when
`meta` is absent, because `undefined === null` is false. -/
def successfulFromMeta (o : TxObservation) : Bool :=
  match o.tx.meta with
  | some m => m.err.isNone
  | none => false

/-! ### Metric selection state (UserSidebar.tsx) -/

/-- The two pieces of selection state:
`selectedDimensions` and `activeSortDimension`. -/
structure SidebarState where
  selectedDimensions : List String
  activeSortDimension : String
deriving DecidableEq, Repr

/-- The initial state: both hooks start at 'timeSpent'. -/
def initialSidebarState : SidebarState :=
  { selectedDimensions := ["timeSpent"], activeSortDimension := "timeSpent" }

/-- The `onCheckedChange` handler of a metric checkbox: checking appends
the metric; unchecking removes it only when it is not the active sort
metric, and otherwise changes nothing. -/
def checkboxChange (s : SidebarState) (metricId : String) (checked : Bool) :
    SidebarState :=
  if checked then
    { s with selectedDimensions := s.selectedDimensions ++ [metricId] }
  else if metricId ≠ s.activeSortDimension then
    { s with selectedDimensions :=
        s.selectedDimensions.filter (fun d => d != metricId) }
  else s

/-- `disabled={isSorting && selectedDimensions.length === 1}` on the
checkbox. -/
def checkboxDisabled (s : SidebarState) (metricId : String) : Bool :=
  (s.activeSortDimension == metricId) && (s.selectedDimensions.length == 1)

/-- The Sort button's `onClick`: it only changes the active sort metric
(closing the popover is presentation). -/
def sortClick (s : SidebarState) (metricId : String) : SidebarState :=
  { s with activeSortDimension := metricId }

/-- `disabled={!isSelected}` on the Sort button. -/
def sortDisabled (s : SidebarState) (metricId : String) : Bool :=
  !(s.selectedDimensions.contains metricId)

/-- The documented invariant: the active sort metric is displayed. -/
def SidebarInv (s : SidebarState) : Prop :=
  s.activeSortDimension ∈ s.selectedDimensions

/-! ### Ranking and filter engine (UserSidebar.tsx) -/

/-- One user record; `rank` is optional (absent until assigned) and
`metrics` maps metric ids to integer values. -/
structure User where
  id : Int
  username : String
  name : String
  avatarUrl : String
  rank : Option Nat
  metrics : List (String × Int)
deriving DecidableEq, Repr

/-- `user.metrics[d] || 0`: an absent metric reads as `undefined`, hence
0; a stored 0 is falsy and also yields 0. -/
def metricValue (u : User) (d : String) : Int :=
  match u.metrics.lookup d with
  | some v => if v ≠ 0 then v else 0
  | none => 0

/-- The search filter:
`username.toLowerCase().includes(q.toLowerCase()) ||
 name.toLowerCase().includes(q.toLowerCase())`. -/
def matchesQuery (q : String) (u : User) : Bool :=
  strIncludes (strToLower u.username) (strToLower q) ||
    strIncludes (strToLower u.name) (strToLower q)

/-- The comparator preorder of
`.sort((a, b) => (b.metrics[d] || 0) - (a.metrics[d] || 0))`:
descending metric value. -/
def userOrder (d : String) (a b : User) : Prop :=
  metricValue b d ≤ metricValue a d

instance (d : String) : DecidableRel (userOrder d) :=
  fun a b => Int.decLe (metricValue b d) (metricValue a d)

instance (d : String) : IsTotal User (userOrder d) :=
  ⟨fun a b => le_total (metricValue b d) (metricValue a d)⟩

instance (d : String) : IsTrans User (userOrder d) :=
  ⟨fun _ _ _ h1 h2 => le_trans h2 h1⟩

/-- `filteredAndSortedUsers = users.filter(...).sort(...)` (stable sort,
modelled by insertion sort as for the trades). -/
def filteredAndSortedUsers (users : List User) (q d : String) : List User :=
  (users.filter (matchesQuery q)).insertionSort (userOrder d)

/-- `.map((user, index) => ({...user, rank: index + 1}))`, with the index
threaded from `k`. -/
def rankFrom (k : Nat) : List User → List User
  | [] => []
  | u :: t => { u with rank := some k } :: rankFrom (k + 1) t

/-- `rankedUsers`: ranks 1.. over the filtered, sorted sequence. -/
def rankedUsers (users : List User) (q d : String) : List User :=
  rankFrom 1 (filteredAndSortedUsers users q d)

/-- Forget the rank (every other field untouched). -/
def eraseRank (u : User) : User := { u with rank := none }

/-! ### Helper lemmas -/

theorem chunkGo_flatten (n : Nat) :
    ∀ (fuel : Nat) (l : List α), l.length ≤ fuel → (chunkGo fuel n l).flatten = l := by
  intro fuel
  induction fuel with
  | zero =>
    intro l hl
    cases l with
    | nil => rfl
    | cons x xs => simp at hl
  | succ fuel ih =>
    intro l hl
    cases l with
    | nil => rfl
    | cons x xs =>
      have hlen : (xs.drop (n - 1)).length ≤ fuel := by
        simp only [List.length_drop]
        simp only [List.length_cons] at hl
        omega
      simp only [chunkGo, List.flatten_cons, ih _ hlen]
      rw [List.cons_append, List.take_append_drop]

theorem chunkList_flatten (n : Nat) (l : List α) : (chunkList n l).flatten = l :=
  chunkGo_flatten n l.length l le_rfl

theorem flatMap_filterMap_batches (f : α → Option β) :
    ∀ ll : List (List α),
      ll.flatMap (fun b => (b.map f).filterMap id) = ll.flatten.filterMap f := by
  intro ll
  induction ll with
  | nil => rfl
  | cons b bs ih =>
    simp only [List.flatMap_cons, List.flatten_cons, List.filterMap_append,
      List.filterMap_map, Function.id_comp] at ih ⊢
    rw [ih]

theorem collectedTrades_eq (env : FetchEnv) (sigs : List SigInfo) :
    collectedTrades env sigs = sigs.filterMap (buildRecord env) := by
  unfold collectedTrades
  rw [flatMap_filterMap_batches, chunkList_flatten]

theorem length_filterMap_isSome (f : α → Option β) :
    ∀ l : List α,
      (l.filterMap f).length = (l.filter (fun a => (f a).isSome)).length := by
  intro l
  induction l with
  | nil => rfl
  | cons a t ih =>
    cases h : f a with
    | none => simp [List.filterMap_cons, List.filter_cons, h, ih]
    | some b => simp [List.filterMap_cons, List.filter_cons, h, ih]

theorem buildRecord_isSome (env : FetchEnv) (g : SigInfo) :
    (buildRecord env g).isSome = (env.getTx g).isSome := by
  cases h : env.getTx g <;> simp [buildRecord, h]

theorem collectedTrades_length (env : FetchEnv) (sigs : List SigInfo) :
    (collectedTrades env sigs).length
      = (sigs.filter (fun g => (env.getTx g).isSome)).length := by
  rw [collectedTrades_eq, length_filterMap_isSome]
  exact congrArg _ (List.filter_congr (fun g _ => buildRecord_isSome env g))

/-! ### C1: metric selection constraints -/

/-- The state with timeSpent and revenue selected, sorting by timeSpent. -/
def twoSelectedState : SidebarState :=
  { selectedDimensions := ["timeSpent", "revenue"], activeSortDimension := "timeSpent" }

/-- C1 counterexample: in `twoSelectedState` the claim permits
deselecting timeSpent (revenue remains usable for sorting), but the
handler leaves the selection unchanged even though the checkbox is
enabled; and from the initial state, switching the sort to the unselected
revenue metric is disabled, and the handler would not add revenue to the
selected set, contradicting the claimed implicit add. -/
theorem C1_counterexample :
    (checkboxChange twoSelectedState "timeSpent" false).selectedDimensions
      = ["timeSpent", "revenue"]
    ∧ checkboxDisabled twoSelectedState "timeSpent" = false
    ∧ (sortClick initialSidebarState "revenue").selectedDimensions = ["timeSpent"]
    ∧ sortDisabled initialSidebarState "revenue" = true := by
  refine ⟨by decide, by decide, by decide, by decide⟩

/-- C1 (amended): unchecking a metric is a no-op when it is the active
sort metric and removes exactly that metric otherwise (the checkbox
control is additionally disabled when the sort metric is the sole
selection); the sort action is disabled for unselected metrics and never
modifies the selected set; consequently the invariant that the active
sort metric belongs to the selected set is preserved by checking,
unchecking, and every enabled sort change. -/
theorem C1_selection_invariant (s : SidebarState) (metricId : String)
    (checked : Bool) (h : SidebarInv s) :
    SidebarInv (checkboxChange s metricId checked)
    ∧ (sortDisabled s metricId = false → SidebarInv (sortClick s metricId))
    ∧ (sortClick s metricId).selectedDimensions = s.selectedDimensions
    ∧ (metricId = s.activeSortDimension → checkboxChange s metricId false = s)
    ∧ (metricId ≠ s.activeSortDimension →
        (checkboxChange s metricId false).selectedDimensions
          = s.selectedDimensions.filter (fun d => d != metricId)) := by
  refine ⟨?_, ?_, rfl, ?_, ?_⟩
  · unfold SidebarInv checkboxChange
    cases checked with
    | true =>
      rw [if_pos rfl]
      show s.activeSortDimension ∈ s.selectedDimensions ++ [metricId]
      exact List.mem_append_left _ h
    | false =>
      simp only [Bool.false_eq_true, if_false]
      by_cases hne : metricId ≠ s.activeSortDimension
      · rw [if_pos hne]
        simp only
        exact List.mem_filter.mpr ⟨h, by simp [bne_iff_ne]; exact fun e => hne e.symm⟩
      · rw [if_neg hne]; exact h
  · intro hsd
    unfold sortDisabled at hsd
    have hc : s.selectedDimensions.contains metricId = true := by
      cases hcc : s.selectedDimensions.contains metricId
      · rw [hcc] at hsd; simp at hsd
      · rfl
    unfold SidebarInv sortClick
    simpa [List.contains, List.elem_iff] using hc
  · intro he
    simp [checkboxChange, he]
  · intro hne
    simp [checkboxChange, hne]

/-- C1 witness: the amended theorem applied at the initial state,
checking the revenue metric. -/
theorem C1_selection_invariant_witness :
    SidebarInv (checkboxChange initialSidebarState "revenue" true) :=
  (C1_selection_invariant initialSidebarState "revenue" true
    (by simp [SidebarInv, initialSidebarState])).1

/-! ### C2: the two success flags diverge -/

/-- A fetched transaction whose body resolved with absent meta while its
signature record carries no error. -/
def divergingObservation : TxObservation :=
  { sig := { signature := "sig", blockTime := none, err := none }
    tx := { meta := none, message := none } }

/-- C2: the success flag read off the signature record and the one read
off the transaction metadata are not equivalent: on a transaction with a
clean signature record but an absent meta object, the batched variant
reports success and the meta variant reports failure. -/
theorem C2_success_variants_diverge :
    ∃ o : TxObservation, successfulFromSignature o ≠ successfulFromMeta o :=
  ⟨divergingObservation, by decide⟩

/-! ### C6 and C7: abort semantics of the fetch -/

/-- C6: whenever an aborting step fails (address decode, balance fetch,
or signature-list fetch), the resulting state has balance null and an
empty transaction list, and the surfaced error is exactly the raw message
of the first failing step. -/
theorem C6_abort_clears_state (env : FetchEnv) (s0 : WalletState) (msg : String)
    (h : firstAbortError env = some msg) :
    (fetchWalletData env s0).1.balance = none
    ∧ (fetchWalletData env s0).1.trades = []
    ∧ (fetchWalletData env s0).1.error = msg := by
  unfold firstAbortError at h
  unfold fetchWalletData
  cases hv : env.validateAddress with
  | error m =>
    rw [hv] at h
    simp only [Option.some_inj] at h
    subst h
    exact ⟨rfl, rfl, rfl⟩
  | ok u =>
    rw [hv] at h
    cases ha : env.getAccountInfo with
    | error m =>
      rw [ha] at h
      simp only [Option.some_inj] at h
      subst h
      exact ⟨rfl, rfl, rfl⟩
    | ok acct =>
      rw [ha] at h
      cases hs : env.getSignatures with
      | error m =>
        rw [hs] at h
        simp only [Option.some_inj] at h
        subst h
        exact ⟨rfl, rfl, rfl⟩
      | ok sigs =>
        rw [hs] at h
        simp at h

/-- The environment of a run whose address decoding throws. -/
def envBadAddress : FetchEnv :=
  { validateAddress := Except.error "Invalid public key input"
    getAccountInfo := Except.ok none
    getSignatures := Except.ok []
    getTx := fun _ => none
    fmtTime := fun _ => "" }

/-- C6 witness: the abort theorem applied to a failing address decode. -/
theorem C6_abort_clears_state_witness :
    (fetchWalletData envBadAddress initialWalletState).1.balance = none
    ∧ (fetchWalletData envBadAddress initialWalletState).1.trades = []
    ∧ (fetchWalletData envBadAddress initialWalletState).1.error
        = "Invalid public key input" :=
  C6_abort_clears_state envBadAddress initialWalletState
    "Invalid public key input" rfl

/-- C7: with a malformed address the fetch issues no network calls at
all: the decode failure short-circuits the run, surfacing the decode
error with balance and trades cleared, and the RPC call trace is empty. -/
theorem C7_invalid_address_no_calls (env : FetchEnv) (s0 : WalletState) (msg : String)
    (h : env.validateAddress = .error msg) :
    (fetchWalletData env s0).2 = []
    ∧ (fetchWalletData env s0).1.error = msg
    ∧ (fetchWalletData env s0).1.balance = none
    ∧ (fetchWalletData env s0).1.trades = [] := by
  unfold fetchWalletData
  rw [h]
  exact ⟨rfl, rfl, rfl, rfl⟩

/-- C7 witness: the theorem applied to a failing address decode. -/
theorem C7_invalid_address_no_calls_witness :
    (fetchWalletData envBadAddress initialWalletState).2 = []
    ∧ (fetchWalletData envBadAddress initialWalletState).1.error
        = "Invalid public key input" :=
  ⟨(C7_invalid_address_no_calls envBadAddress initialWalletState
      "Invalid public key input" rfl).1,
   (C7_invalid_address_no_calls envBadAddress initialWalletState
      "Invalid public key input" rfl).2.1⟩

/-! ### C8: per-transaction drops never abort -/

theorem sortTrades_eq_insertionSort (l : List Trade) :
    sortTrades l = l.insertionSort tradeOrder := by
  unfold sortTrades
  congr 1
  simp

theorem sortTrades_length (l : List Trade) : (sortTrades l).length = l.length := by
  rw [sortTrades_eq_insertionSort, List.length_insertionSort]

/-- Unfolding lemma: a successful run with a nonempty signature list
stores the sorted collected records. -/
theorem fetchWalletData_ok_trades (env : FetchEnv) (s0 : WalletState)
    (sigs : List SigInfo) (acct : Option AccountInfo)
    (hv : env.validateAddress = .ok ())
    (ha : env.getAccountInfo = .ok acct)
    (hs : env.getSignatures = .ok sigs)
    (hne : sigs.isEmpty = false) :
    (fetchWalletData env s0).1.trades = sortTrades (collectedTrades env sigs) := by
  unfold fetchWalletData
  rw [hv, ha, hs]
  simp only [hne, Bool.false_eq_true, if_false]

/-- Unfolding lemma: a successful run with an empty signature list keeps
the trades cleared. -/
theorem fetchWalletData_ok_empty (env : FetchEnv) (s0 : WalletState)
    (acct : Option AccountInfo)
    (hv : env.validateAddress = .ok ())
    (ha : env.getAccountInfo = .ok acct)
    (hs : env.getSignatures = .ok ([] : List SigInfo)) :
    (fetchWalletData env s0).1.trades = [] := by
  unfold fetchWalletData
  rw [hv, ha, hs]
  simp

/-- C8: for every successful fetch, the stored transaction list's length
equals the number of signatures whose body fetch resolved (each
rejection or null body silently drops only that record), and is at most
the number of signatures requested. -/
theorem C8_per_transaction_drops (env : FetchEnv) (s0 : WalletState)
    (sigs : List SigInfo) (acct : Option AccountInfo)
    (hv : env.validateAddress = .ok ())
    (ha : env.getAccountInfo = .ok acct)
    (hs : env.getSignatures = .ok sigs) :
    (fetchWalletData env s0).1.trades.length
      = (sigs.filter (fun g => (env.getTx g).isSome)).length
    ∧ (fetchWalletData env s0).1.trades.length ≤ sigs.length := by
  have key : (fetchWalletData env s0).1.trades.length
      = (sigs.filter (fun g => (env.getTx g).isSome)).length := by
    cases hE : sigs.isEmpty with
    | true =>
      have hnil : sigs = [] := List.isEmpty_iff.mp hE
      subst hnil
      rw [fetchWalletData_ok_empty env s0 acct hv ha hs]
      rfl
    | false =>
      rw [fetchWalletData_ok_trades env s0 sigs acct hv ha hs hE,
        sortTrades_length, collectedTrades_length]
  refine ⟨key, ?_⟩
  rw [key]
  exact List.length_filter_le _ _

/-- A concrete signature record. -/
def sigRecord (n : String) (t : Option Int) (e : Option String) : SigInfo :=
  { signature := n, blockTime := t, err := e }

/-- Three signatures, the last of which will fail to resolve. -/
def sigsMixed : List SigInfo :=
  [sigRecord "old" (some 100) none, sigRecord "new" (some 200) none,
   sigRecord "bad" none (some "e")]

/-- A successful run in which the transaction body of the last signature
fails to fetch. -/
def envMixed : FetchEnv :=
  { validateAddress := Except.ok ()
    getAccountInfo := Except.ok none
    getSignatures := Except.ok sigsMixed
    getTx := fun g =>
      if g.signature == "bad" then none else some { meta := none, message := none }
    fmtTime := fun _ => "time" }

/-- C8 witness: the theorem applied to the mixed run (two of three bodies
resolve). -/
theorem C8_per_transaction_drops_witness :
    (fetchWalletData envMixed initialWalletState).1.trades.length
      = (sigsMixed.filter (fun g => (envMixed.getTx g).isSome)).length
    ∧ (fetchWalletData envMixed initialWalletState).1.trades.length ≤ 3 :=
  C8_per_transaction_drops envMixed initialWalletState sigsMixed none rfl rfl rfl

/-! ### C4: newest-first ordering of the result -/

/-- C4: a successful batched fetch producing more than one record stores
exactly the stable descending-blockTime sort of the collected records: a
permutation of them, pairwise newest-first (a missing block time was
stored as 0 at record construction), in which any two collected records
already ordered by the comparator — ties in particular — keep their
original relative order. -/
theorem C4_sorted_newest_first (env : FetchEnv) (s0 : WalletState)
    (sigs : List SigInfo) (acct : Option AccountInfo)
    (hv : env.validateAddress = .ok ())
    (ha : env.getAccountInfo = .ok acct)
    (hs : env.getSignatures = .ok sigs)
    (hlen : 1 < (fetchWalletData env s0).1.trades.length) :
    (fetchWalletData env s0).1.trades = sortTrades (collectedTrades env sigs)
    ∧ ((fetchWalletData env s0).1.trades).Perm (collectedTrades env sigs)
    ∧ ((fetchWalletData env s0).1.trades).Pairwise
        (fun a b => b.blockTime ≤ a.blockTime)
    ∧ ∀ a b : Trade, [a, b].Sublist (collectedTrades env sigs) →
        b.blockTime ≤ a.blockTime →
        [a, b].Sublist ((fetchWalletData env s0).1.trades) := by
  have hne : sigs.isEmpty = false := by
    cases hE : sigs.isEmpty with
    | false => rfl
    | true =>
      exfalso
      have hnil : sigs = [] := List.isEmpty_iff.mp hE
      subst hnil
      rw [fetchWalletData_ok_empty env s0 acct hv ha hs] at hlen
      simp at hlen
  have hout : (fetchWalletData env s0).1.trades
      = sortTrades (collectedTrades env sigs) :=
    fetchWalletData_ok_trades env s0 sigs acct hv ha hs hne
  refine ⟨hout, ?_, ?_, ?_⟩
  · rw [hout, sortTrades_eq_insertionSort]
    exact List.perm_insertionSort tradeOrder _
  · rw [hout, sortTrades_eq_insertionSort]
    exact List.sorted_insertionSort tradeOrder _
  · intro a b hsub hab
    rw [hout, sortTrades_eq_insertionSort]
    exact List.sublist_insertionSort (by simp [List.pairwise_cons, tradeOrder, hab]) hsub

/-- C4 witness: the theorem applied to the mixed run; its two surviving
records come back newest-first. -/
theorem C4_sorted_newest_first_witness :
    ((fetchWalletData envMixed initialWalletState).1.trades).Pairwise
      (fun a b => b.blockTime ≤ a.blockTime)
    ∧ ((fetchWalletData envMixed initialWalletState).1.trades).map Trade.signature
        = ["new", "old"] :=
  ⟨(C4_sorted_newest_first envMixed initialWalletState sigsMixed none
      rfl rfl rfl (by decide)).2.2.1,
   by decide⟩

/-! ### C5: heuristic keyword priority -/

/-- A swap-classified description: either the regex-interpolated sentence
or the generic swap label. -/
def isSwapLabel (r : String) : Prop :=
  r = "Token Swap" ∨ ∃ a1 a2 b1 b2 : String,
    r = "Swapped " ++ a1 ++ " " ++ a2 ++ " for " ++ b1 ++ " " ++ b2

/-- A transfer-classified description: either the regex-interpolated
sentence or the generic transfer label. -/
def isTransferLabel (r : String) : Prop :=
  r = "Token Transfer" ∨ ∃ a1 a2 : String, r = "Transferred " ++ a1 ++ " " ++ a2

/-- C5: the heuristic classifier tests the joined log text for the
keyword triggers Swap, Transfer, Deposit, Withdraw, Stake, Create, Close
in that order with the first match winning — in particular any text
containing "Swap" (even together with "Transfer") classifies as a
swap — and text matching no keyword yields the generic "Transaction"
label. -/
theorem C5_keyword_priority (tx : ParsedTx) (meta : TxMeta) (ls : List String)
    (hm : tx.meta = some meta) (hl : meta.logMessages = some ls) :
    (strIncludes (joinLogs ls) "Swap" = true →
       isSwapLabel (parseTransactionTypeHeuristic tx))
    ∧ (strIncludes (joinLogs ls) "Swap" = false →
       strIncludes (joinLogs ls) "Transfer" = true →
       isTransferLabel (parseTransactionTypeHeuristic tx))
    ∧ (strIncludes (joinLogs ls) "Swap" = false →
       strIncludes (joinLogs ls) "Transfer" = false →
       strIncludes (joinLogs ls) "Deposit" = true →
       parseTransactionTypeHeuristic tx = "Deposit")
    ∧ (strIncludes (joinLogs ls) "Swap" = false →
       strIncludes (joinLogs ls) "Transfer" = false →
       strIncludes (joinLogs ls) "Deposit" = false →
       strIncludes (joinLogs ls) "Withdraw" = true →
       parseTransactionTypeHeuristic tx = "Withdrawal")
    ∧ (strIncludes (joinLogs ls) "Swap" = false →
       strIncludes (joinLogs ls) "Transfer" = false →
       strIncludes (joinLogs ls) "Deposit" = false →
       strIncludes (joinLogs ls) "Withdraw" = false →
       strIncludes (joinLogs ls) "Stake" = true →
       parseTransactionTypeHeuristic tx = "Staking")
    ∧ (strIncludes (joinLogs ls) "Swap" = false →
       strIncludes (joinLogs ls) "Transfer" = false →
       strIncludes (joinLogs ls) "Deposit" = false →
       strIncludes (joinLogs ls) "Withdraw" = false →
       strIncludes (joinLogs ls) "Stake" = false →
       strIncludes (joinLogs ls) "Create" = true →
       parseTransactionTypeHeuristic tx = "Account Creation")
    ∧ (strIncludes (joinLogs ls) "Swap" = false →
       strIncludes (joinLogs ls) "Transfer" = false →
       strIncludes (joinLogs ls) "Deposit" = false →
       strIncludes (joinLogs ls) "Withdraw" = false →
       strIncludes (joinLogs ls) "Stake" = false →
       strIncludes (joinLogs ls) "Create" = false →
       strIncludes (joinLogs ls) "Close" = true →
       parseTransactionTypeHeuristic tx = "Account Closure")
    ∧ (strIncludes (joinLogs ls) "Swap" = false →
       strIncludes (joinLogs ls) "Transfer" = false →
       strIncludes (joinLogs ls) "Deposit" = false →
       strIncludes (joinLogs ls) "Withdraw" = false →
       strIncludes (joinLogs ls) "Stake" = false →
       strIncludes (joinLogs ls) "Create" = false →
       strIncludes (joinLogs ls) "Close" = false →
       parseTransactionTypeHeuristic tx = "Transaction") := by
  simp only [parseTransactionTypeHeuristic, hm, hl]
  refine ⟨?_, ?_, ?_, ?_, ?_, ?_, ?_, ?_⟩
  · intro h1
    rw [if_pos h1]
    cases matchAllAmounts (joinLogs ls) with
    | nil => exact Or.inl rfl
    | cons a t =>
      cases t with
      | nil => exact Or.inl rfl
      | cons b t2 => exact Or.inr ⟨a.1, a.2, b.1, b.2, rfl⟩
  · intro h1 h2
    rw [if_neg (by simp [h1]), if_pos h2]
    cases matchAllAmounts (joinLogs ls) with
    | nil => exact Or.inl rfl
    | cons a t => exact Or.inr ⟨a.1, a.2, rfl⟩
  · intro h1 h2 h3
    rw [if_neg (by simp [h1]), if_neg (by simp [h2]), if_pos h3]
  · intro h1 h2 h3 h4
    rw [if_neg (by simp [h1]), if_neg (by simp [h2]), if_neg (by simp [h3]),
      if_pos h4]
  · intro h1 h2 h3 h4 h5
    rw [if_neg (by simp [h1]), if_neg (by simp [h2]), if_neg (by simp [h3]),
      if_neg (by simp [h4]), if_pos h5]
  · intro h1 h2 h3 h4 h5 h6
    rw [if_neg (by simp [h1]), if_neg (by simp [h2]), if_neg (by simp [h3]),
      if_neg (by simp [h4]), if_neg (by simp [h5]), if_pos h6]
  · intro h1 h2 h3 h4 h5 h6 h7
    rw [if_neg (by simp [h1]), if_neg (by simp [h2]), if_neg (by simp [h3]),
      if_neg (by simp [h4]), if_neg (by simp [h5]), if_neg (by simp [h6]),
      if_pos h7]
  · intro h1 h2 h3 h4 h5 h6 h7
    rw [if_neg (by simp [h1]), if_neg (by simp [h2]), if_neg (by simp [h3]),
      if_neg (by simp [h4]), if_neg (by simp [h5]), if_neg (by simp [h6]),
      if_neg (by simp [h7])]

/-- The meta object of a transaction whose logs contain both Swap and
Transfer. -/
def swapTransferMeta : TxMeta :=
  { err := none, logMessages := some ["Swap", "Transfer"], preBalances := none,
    postBalances := none, innerInstructions := none }

/-- A transaction whose logs contain both Swap and Transfer. -/
def swapTransferTx : ParsedTx := { meta := some swapTransferMeta, message := none }

/-- C5 witness: log text containing both Swap and Transfer classifies as
a swap (here the generic swap label, as the text carries no amounts), by
the priority theorem applied at that input. -/
theorem C5_keyword_priority_witness :
    isSwapLabel (parseTransactionTypeHeuristic swapTransferTx)
    ∧ parseTransactionTypeHeuristic swapTransferTx = "Token Swap" :=
  ⟨(C5_keyword_priority swapTransferTx swapTransferMeta ["Swap", "Transfer"]
      rfl rfl).1 (by decide),
   by decide⟩

/-! ### C3: the balance-change computation -/

/-- The per-account map of the structural classifier, characterized on
aligned balance arrays: one entry per index whose computed binary64
change is non-zero, in index order, rendering that change via
toFixed(4). -/
theorem balanceChangeList_eq (pre post : List Int) :
    ∀ (accts : List String) (i : Nat),
      i + accts.length ≤ pre.length → i + accts.length ≤ post.length →
      balanceChangeList pre post i accts =
        (List.range accts.length).filterMap (fun j =>
          let change := jsRatSub (divByLamports (jsNumber (post.getD (i + j) 0)))
            (divByLamports (jsNumber (pre.getD (i + j) 0)))
          if change.num = 0 then none
          else some { account := accts.getD j "",
                      change := toFixed4 change }) := by
  intro accts
  induction accts with
  | nil =>
    intro i h1 h2
    rfl
  | cons a rest ih =>
    intro i h1 h2
    have hip : i < pre.length := by
      simp only [List.length_cons] at h1; omega
    have hiq : i < post.length := by
      simp only [List.length_cons] at h2; omega
    have hpre : pre[i]? = some (pre.getD i 0) := by
      rw [List.getElem?_eq_getElem hip, List.getD_eq_getElem pre 0 hip]
    have hpost : post[i]? = some (post.getD i 0) := by
      rw [List.getElem?_eq_getElem hiq, List.getD_eq_getElem post 0 hiq]
    have hrec := ih (i + 1)
      (by simp only [List.length_cons] at h1; omega)
      (by simp only [List.length_cons] at h2; omega)
    rw [balanceChangeList, hpre, hpost]
    simp only [Option.map_some', jsSub, jsNeZero, jsToFixed4, List.length_cons,
      List.range_succ_eq_map, List.filterMap_cons, Nat.add_zero,
      List.getD_cons_zero, List.filterMap_map]
    by_cases hz : (jsRatSub (divByLamports (jsNumber (post.getD i 0)))
        (divByLamports (jsNumber (pre.getD i 0)))).num = 0
    · have hb : ((jsRatSub (divByLamports (jsNumber (post.getD i 0)))
          (divByLamports (jsNumber (pre.getD i 0)))).num == 0) = true :=
        beq_iff_eq.mpr hz
      rw [hb, if_pos hz]
      simp only [Bool.not_true, Bool.false_eq_true, if_false,
        List.nil_append, hrec]
      apply List.filterMap_congr
      intro j hj
      simp only [Function.comp_apply, List.getD_cons_succ]
      have harith : i + (j + 1) = i + 1 + j := by omega
      rw [harith]
    · have hb : ((jsRatSub (divByLamports (jsNumber (post.getD i 0)))
          (divByLamports (jsNumber (pre.getD i 0)))).num == 0) = false :=
        beq_eq_false_iff_ne.mpr hz
      rw [hb, if_neg hz]
      simp only [Bool.not_false, if_true, List.cons_append,
        List.nil_append, hrec]
      congr 1
      apply List.filterMap_congr
      intro j hj
      simp only [Function.comp_apply, List.getD_cons_succ]
      have harith : i + (j + 1) = i + 1 + j := by omega
      rw [harith]

/-- The counterexample metadata: one account at 3000000000 lamports
before and 3000050000 lamports after. -/
def cexC3Meta : TxMeta :=
  { err := none, logMessages := none, preBalances := some [3000000000],
    postBalances := some [3000050000], innerInstructions := none }

/-- The counterexample message: the single account. -/
def cexC3Msg : TxMessage :=
  { accountKeys := [{ pubkey := "acct" }], instructions := [] }

set_option maxRecDepth 20000 in
/-- C3 counterexample: at pre = 3000000000 and post = 3000050000
lamports the program computes the binary64 difference fl(3.00005) - 3.0,
which lies just below 5e-5 because 3.00005 rounds down, and renders
"0.0000"; the exact quotient (postLamports - preLamports) / 1e9 = 5e-5
the claim prescribes renders "0.0001".  The emitted change is therefore
not always the exact (post - pre) / 1e9 at 4-decimal precision. -/
theorem C3_counterexample :
    (parseTransactionType
        { meta := some cexC3Meta, message := some cexC3Msg }).balanceChanges
      = [{ account := "acct", change := "0.0000" }]
    ∧ toFixed4 { num := 3000050000 - 3000000000, den := 1000000000 } = "0.0001" := by
  refine ⟨by decide, by decide⟩

/-- C3 (amended): for a transaction with meta and message present and
balance arrays covering the account list, the structural classifier
emits a BalanceChange for an account exactly when the computed binary64
change — the double-precision difference of the double-precision
quotients post / 1e9 and pre / 1e9 of the JSON-parsed balances — is
non-zero, entries appear in account-list order, and each change is that
binary64 value rendered by toFixed(4). -/
theorem C3_balance_changes (meta : TxMeta) (msg : TxMessage)
    (h1 : msg.accountKeys.length ≤ (meta.preBalances.getD []).length)
    (h2 : msg.accountKeys.length ≤ (meta.postBalances.getD []).length) :
    (parseTransactionType { meta := some meta, message := some msg }).balanceChanges =
      (List.range msg.accountKeys.length).filterMap (fun j =>
        let change := jsRatSub
          (divByLamports (jsNumber ((meta.postBalances.getD []).getD j 0)))
          (divByLamports (jsNumber ((meta.preBalances.getD []).getD j 0)))
        if change.num = 0 then none
        else some { account := (msg.accountKeys.map AccountKey.pubkey).getD j "",
                    change := toFixed4 change }) := by
  have key := balanceChangeList_eq (meta.preBalances.getD [])
    (meta.postBalances.getD []) (msg.accountKeys.map AccountKey.pubkey) 0
    (by simpa using h1) (by simpa using h2)
  simp only [List.length_map, Nat.zero_add] at key
  simp only [parseTransactionType]
  exact key

/-- The example metadata of the claim: a first account at 1.0 SOL before
and 1.5 SOL after, a second account unchanged. -/
def exampleC3Meta : TxMeta :=
  { err := none, logMessages := none, preBalances := some [1000000000, 7],
    postBalances := some [1500000000, 7], innerInstructions := none }

/-- The example message: two accounts, no instructions. -/
def exampleC3Msg : TxMessage :=
  { accountKeys := [{ pubkey := "alice" }, { pubkey := "bob" }], instructions := [] }

set_option maxRecDepth 20000 in
/-- C3 witness: the amended theorem applied to the example of the claim
— 1.0 SOL, 1.5 SOL and their difference 0.5 are exactly representable,
so the account produces the single entry with change "0.5000" and the
equal-balances account produces none. -/
theorem C3_balance_changes_witness :
    (parseTransactionType
        { meta := some exampleC3Meta, message := some exampleC3Msg }).balanceChanges
      = [{ account := "alice", change := "0.5000" }] := by
  rw [C3_balance_changes exampleC3Meta exampleC3Msg (by decide) (by decide)]
  decide

/-! ### C9 and C10: the ranking engine -/

theorem rankFrom_get (l : List User) :
    ∀ (k i : Nat) (h : i < (rankFrom k l).length),
      ((rankFrom k l).get ⟨i, h⟩).rank = some (k + i) := by
  induction l with
  | nil =>
    intro k i h
    simp [rankFrom] at h
  | cons u t ih =>
    intro k i h
    cases i with
    | zero => rfl
    | succ j =>
      have h2 : j < (rankFrom (k + 1) t).length := by
        simp only [rankFrom, List.length_cons] at h
        omega
      exact (ih (k + 1) j h2).trans (congrArg some (by omega))

theorem rankFrom_map_eraseRank (l : List User) :
    ∀ k, (rankFrom k l).map eraseRank = l.map eraseRank := by
  induction l with
  | nil => intro k; rfl
  | cons u t ih =>
    intro k
    simp only [rankFrom, List.map_cons, ih, eraseRank]

/-- C9: the ranking engine sorts the filtered users descending by the
chosen metric (a missing metric value reads as 0), stably — two filtered
users whose order already respects the comparator, ties in particular,
keep their relative order — and assigns rank index+1 over the resulting
sequence. -/
theorem C9_rank_engine (users : List User) (q d : String) :
    (filteredAndSortedUsers users q d).Perm (users.filter (matchesQuery q))
    ∧ (filteredAndSortedUsers users q d).Pairwise
        (fun a b => metricValue b d ≤ metricValue a d)
    ∧ (∀ a b : User, [a, b].Sublist (users.filter (matchesQuery q)) →
        metricValue b d ≤ metricValue a d →
        [a, b].Sublist (filteredAndSortedUsers users q d))
    ∧ ∀ (i : Nat) (h : i < (rankedUsers users q d).length),
        ((rankedUsers users q d).get ⟨i, h⟩).rank = some (i + 1) := by
  refine ⟨List.perm_insertionSort _ _, ?_, ?_, ?_⟩
  · exact List.sorted_insertionSort (userOrder d) _
  · intro a b hsub hab
    exact List.sublist_insertionSort
      (by simp [List.pairwise_cons, userOrder, hab]) hsub
  · intro i h
    exact (rankFrom_get (filteredAndSortedUsers users q d) 1 i h).trans
      (congrArg some (by omega))

/-- One user of the claim's ranking example, carrying a single metric
named m. -/
def exampleUser (i : Int) (un nm : String) (m : Int) : User :=
  { id := i, username := un, name := nm, avatarUrl := "", rank := none,
    metrics := [("m", m)] }

/-- The claim's example list: ids 1 and 2 tie at metric 5, id 3 has 9. -/
def exampleUsers : List User :=
  [exampleUser 1 "u1" "U1" 5, exampleUser 2 "u2" "U2" 5, exampleUser 3 "u3" "U3" 9]

/-- C9 witness: on the example, id 3 ranks first and the tied ids 1 and 2
keep their original order at ranks 2 and 3; the head rank equals 0+1 by
the theorem applied at the example. -/
theorem C9_rank_engine_witness :
    (rankedUsers exampleUsers "" "m").map (fun u => (u.id, u.rank))
      = [(3, some 1), (1, some 2), (2, some 3)]
    ∧ ((rankedUsers exampleUsers "" "m").get ⟨0, by decide⟩).rank = some 1 :=
  ⟨by decide, (C9_rank_engine exampleUsers "" "m").2.2.2 0 (by decide)⟩

/-- C10: ranking is a frame-preserving permutation: forgetting ranks, the
ranked output is exactly a permutation of the filtered input users — no
user is added, dropped or duplicated, and all fields other than rank are
untouched. -/
theorem C10_rank_frame (users : List User) (q d : String) :
    ((rankedUsers users q d).map eraseRank).Perm
      ((users.filter (matchesQuery q)).map eraseRank) := by
  unfold rankedUsers
  rw [rankFrom_map_eraseRank]
  exact (List.perm_insertionSort _ _).map eraseRank

end Whop
